import Mathlib

/-!
Verification development for the CSV → document-store loader of this
repository (`data_to_mongo.py`, both the `notebooks` and the `Project`
variant).  The Python functions are shallowly embedded as executable Lean
definitions: pure helpers become Lean functions, the effects of the
filesystem, of `pandas` and of the MongoDB client are passed in explicitly
as function-valued parameters (`JobEnv`), Python exceptions become
`Except` values, and every `try/except` of the source is translated into
an explicit `match` on those `Except` values.
-/

namespace DataToMongo

/-- A Python exception value (only its message is observable here). -/
inductive PyErr where
  | err (msg : String)
deriving DecidableEq

/-- Result of one `collection.insert_many(batch, ordered=False)` call, as the
caller of the loader sees it:
* `ok n` — the call returned normally and `len(result.inserted_ids) = n`;
* `bulkWriteError nIns nErr` — the call raised `pymongo.errors.BulkWriteError`
  after attempting every record (unordered insert): `nIns` records were
  accepted by the store and `nErr = len(bwe.details["writeErrors"])` were
  rejected;
* `generalError` — the call raised any other `Exception`
  (e.g. a severed connection). -/
inductive InsertResult where
  | ok (nInserted : Nat)
  | bulkWriteError (nInserted : Nat) (writeErrors : Nat)
  | generalError
deriving DecidableEq

/-- A scalar cell value of the in-memory table:
a present string, a parsed timestamp (epoch number), pandas `NaN`/`NaT`,
or Python `None` (the explicit "missing" marker sent to the store). -/
inductive Value where
  | str (s : String)
  | timestamp (t : Nat)
  | nan
  | missing
deriving DecidableEq

/-- One record of `df.to_dict(orient="records")`: a column → value mapping. -/
abbrev Row := List (String × Value)

/-- The raw text table produced by reading the CSV file:
header names and the raw text cells of each row. -/
structure RawTable where
  cols : List String
  rows : List (List String)
deriving DecidableEq

/-- The in-memory DataFrame after cell parsing. -/
structure Table where
  cols : List String
  rows : List (List Value)
deriving DecidableEq

/-! ### Cell normalization (`pd.read_csv` NA handling and
`df.where(pd.notnull(df), None)`, data_to_mongo.py lines 164-168 / 110-113) -/

/-- The default NA sentinels of `pd.read_csv`
(pandas `STR_NA_VALUES`, used because the source passes no `na_values` and
keeps `keep_default_na=True`).  A raw cell whose text is one of these is
read as `NaN`; note the empty string is a member, a whitespace-only cell
is not. -/
def defaultNaValues : List String :=
  ["", "#N/A", "#N/A N/A", "#NA", "-1.#IND", "-1.#QNAN", "-NaN", "-nan",
   "1.#IND", "1.#QNAN", "<NA>", "N/A", "NA", "NULL", "NaN", "None",
   "n/a", "nan", "null"]

/-- Cell-level model of `pd.read_csv`'s NA detection: a raw text cell is
read as `NaN` exactly when its text is one of the default NA sentinels. -/
def readCell (s : String) : Value :=
  if s ∈ defaultNaValues then Value.nan else Value.str s

/-- Cell-level effect of `df = df.where(pd.notnull(df), None)`
(line 168 / 113): replace `NaN` by `None`, leave everything else alone. -/
def whereNotNullCell (v : Value) : Value :=
  match v with
  | Value.nan => Value.missing
  | v => v

/-- The loader's whole normalization of one input cell:
`pd.read_csv` NA detection followed by the `where(pd.notnull(df), None)`
replacement. -/
def normalizeCell (s : String) : Value :=
  whereNotNullCell (readCell s)

/-- `pd.read_csv` applied to the raw text table (cell parsing only). -/
def parseCsvTable (raw : RawTable) : Table :=
  { cols := raw.cols, rows := raw.rows.map (fun row => row.map readCell) }

/-- `df.where(pd.notnull(df), None)` on the whole table. -/
def whereNotNull (t : Table) : Table :=
  { cols := t.cols, rows := t.rows.map (fun row => row.map whereNotNullCell) }

/-- The claim's own predicate "blank or contains only whitespace". -/
def blankOrWhitespace (s : String) : Bool :=
  s.data.all Char.isWhitespace

/-! ### Date/time column conversion (`convert_datetime_columns`,
data_to_mongo.py lines 108-136 / 93-102) -/

/-- `startsWithChars pat l` : `pat` is an initial segment of `l`. -/
def startsWithChars : List Char → List Char → Bool
  | [], _ => true
  | _ :: _, [] => false
  | p :: ps, c :: cs => p == c && startsWithChars ps cs

/-- `containsChars pat l` : `pat` occurs contiguously inside `l`
(the semantics of Python's `sub in s` on strings). -/
def containsChars (pat : List Char) : List Char → Bool
  | [] => startsWithChars pat []
  | s@(_ :: cs) => startsWithChars pat s || containsChars pat cs

/-- `"date" in column.lower() or "time" in column.lower()` (line 117-118 / 95). -/
def isDatetimeName (name : String) : Bool :=
  containsChars "date".data (name.data.map Char.toLower) ||
  containsChars "time".data (name.data.map Char.toLower)

/-- Cell-level model of `pd.to_datetime(df[column], errors="coerce")`
(line 121 / 97), parameterized by the datetime-string parser `p`:
an already canonical timestamp stays itself, an unparseable string and
every NA value become `NaT`, a parseable string becomes its timestamp. -/
def toDatetimeCell (p : String → Option Nat) : Value → Value
  | Value.str s =>
      match p s with
      | some t => Value.timestamp t
      | none => Value.nan
  | Value.timestamp t => Value.timestamp t
  | Value.nan => Value.nan
  | Value.missing => Value.nan

/-- One cell of a date/time-named column after
`pd.to_datetime(..., errors="coerce")` and the
`df[column].replace({pd.NaT: None})` that follows it (lines 121-124 / 97-98). -/
def convertCell (p : String → Option Nat) (v : Value) : Value :=
  match toDatetimeCell p v with
  | Value.nan => Value.missing
  | w => w

/-- `convert_datetime_columns(df)` (lines 108-136 / 93-102): every column
whose lowercased name contains `"date"` or `"time"` is coerced cell by
cell; all other columns are left untouched. -/
def convert_datetime_columns (p : String → Option Nat) (t : Table) : Table :=
  { cols := t.cols,
    rows := t.rows.map (fun row =>
      List.zipWith (fun c v => if isDatetimeName c then convertCell p v else v)
        t.cols row) }

/-- `df.to_dict(orient="records")` (line 174 / 115). -/
def toRecords (t : Table) : List Row :=
  t.rows.map (fun row => t.cols.zip row)

/-- A cell that is already in the loader's canonical output form for a
date/time column: a timestamp or the missing marker. -/
def isCanonicalDt : Value → Bool
  | Value.timestamp _ => true
  | Value.missing => true
  | _ => false

/-- Every cell of every date/time-named column of `t` is canonical. -/
def dtColumnsCanonical (t : Table) : Bool :=
  t.rows.all (fun row =>
    (t.cols.zip row).all (fun cv => !(isDatetimeName cv.1) || isCanonicalDt cv.2))

/-- The table is rectangular (every row as long as the header), the
DataFrame invariant. -/
def rectangularTable (t : Table) : Bool :=
  t.rows.all (fun row => row.length == t.cols.length)

/-! ### Batch slicing (`for i in range(0, len(data_records), batch_size):
batch = data_records[i : i + batch_size]`, data_to_mongo.py lines 189-190 /
120-121) -/

/-- Fuel-indexed worker for `batches`; the fuel is an upper bound on the
list length, so the recursion is structural and kernel-reducible. -/
def batchesGo (b : Nat) : Nat → List α → List (List α)
  | _, [] => []
  | 0, _ :: _ => []
  | fuel + 1, x :: xs => ((x :: xs).take b) :: batchesGo b fuel ((x :: xs).drop b)

/-- The slice sequence `[records[0:b], records[b:2b], ...]` produced by the
batch loop of `load_csv_to_mongo` for `batch_size = b > 0`. -/
def batches (b : Nat) (l : List α) : List (List α) :=
  batchesGo b l.length l

/-! ### The batch-insert loop (data_to_mongo.py lines 185-210) -/

/-- The mutable state of the batch loop: the external store state `σ`, the
running totals `total_inserted` and `total_errors`, and the trace of the
sizes of the batches on which `collection.insert_many` was actually
called (one entry per loop iteration, mirroring the per-batch log line). -/
structure LoopState (σ : Type) where
  store : σ
  totalInserted : Nat
  totalErrors : Nat
  attempted : List Nat
deriving DecidableEq

/-- The three handlers of the loop body (lines 191-210): a normal return
adds `len(result.inserted_ids)` to `total_inserted`; `except BulkWriteError`
adds `len(writeErrors)` to `total_errors` (and, because the exception skips
the `total_inserted +=` line, adds nothing to `total_inserted`);
`except Exception` adds `len(batch)` to `total_errors`. -/
def applyInsertResult (st : LoopState σ) (s2 : σ) (blen : Nat) :
    InsertResult → LoopState σ
  | InsertResult.ok n =>
      { store := s2, totalInserted := st.totalInserted + n,
        totalErrors := st.totalErrors, attempted := st.attempted ++ [blen] }
  | InsertResult.bulkWriteError _ e =>
      { store := s2, totalInserted := st.totalInserted,
        totalErrors := st.totalErrors + e, attempted := st.attempted ++ [blen] }
  | InsertResult.generalError =>
      { store := s2, totalInserted := st.totalInserted,
        totalErrors := st.totalErrors + blen, attempted := st.attempted ++ [blen] }

/-- The batch loop itself: `step` is the behaviour of
`collection.insert_many(batch, ordered=False)` (it may update the store
state and reports one `InsertResult` per call).  Every batch is processed;
no handler re-raises, so no batch outcome stops the loop. -/
def runBatchLoop (step : σ → List ρ → σ × InsertResult) :
    LoopState σ → List (List ρ) → LoopState σ
  | st, [] => st
  | st, bb :: bs =>
      runBatchLoop step
        (applyInsertResult st (step st.store bb).1 bb.length (step st.store bb).2) bs

/-- The loop started on fresh totals (lines 185-186: `total_inserted = 0`,
`total_errors = 0`). -/
def insertBatches (step : σ → List ρ → σ × InsertResult) (s0 : σ)
    (bs : List (List ρ)) : LoopState σ :=
  runBatchLoop step { store := s0, totalInserted := 0, totalErrors := 0, attempted := [] } bs

/-- Well-formedness of a store behaviour: an insert call on a batch never
reports more inserted ids, nor more per-record write errors, than the
batch has records. -/
def WFStep (step : σ → List ρ → σ × InsertResult) : Prop :=
  ∀ s b, (∀ n, (step s b).2 = InsertResult.ok n → n ≤ b.length) ∧
    (∀ i e, (step s b).2 = InsertResult.bulkWriteError i e → e ≤ b.length)

/-! ### Helper functions `detect_delimiter` and `validate_csv_file`
(data_to_mongo.py lines 74-106 / 71-91) -/

/-- `detect_delimiter` (lines 74-91 / 71-82).  The whole body is inside one
`try/except Exception`.  `readResult` is the outcome of
`open(...)` + `csvfile.read(1024)` — modelled as the file's full character
content (from which the function examines only the first 1024) or a raised
IO error — and `sniff` is `csv.Sniffer().sniff` on the sample, which either
returns the dialect's single delimiter character or raises.  Any raised
exception lands in the handler, which returns `','`. -/
def detect_delimiter (readResult : Except PyErr (List Char))
    (sniff : List Char → Except PyErr Char) : Char :=
  match readResult with
  | Except.error _ => ','
  | Except.ok content =>
      match sniff (content.take 1024) with
      | Except.error _ => ','
      | Except.ok d => d

/-- The filesystem and external-library behaviour one load job consults,
plus the store behaviour.  `σ` is the state of the destination store.
* `pathExists`/`readable` back `os.path.exists`/`os.access(..., R_OK)`;
* `fileRead path` is the content handed to `detect_delimiter`;
* `readCsv path delim` is `pd.read_csv(path, delimiter=delim, ...)`:
  the raw text table, or a raised parse/IO error;
* `parseDt` is the datetime-string parser backing `pd.to_datetime`;
* `insertMany` is `collection.insert_many(batch, ordered=False)`;
* `countDocs` is `collection.estimated_document_count()`, which may raise. -/
structure JobEnv (σ : Type) where
  pathExists : String → Bool
  readable : String → Bool
  fileRead : String → Except PyErr (List Char)
  sniff : List Char → Except PyErr Char
  readCsv : String → Char → Except PyErr RawTable
  parseDt : String → Option Nat
  insertMany : σ → List Row → σ × InsertResult
  countDocs : σ → Except PyErr Nat

/-- `validate_csv_file` (lines 93-106 / 84-91): true iff the path exists
and is readable. -/
def validate_csv_file (env : JobEnv σ) (path : String) : Bool :=
  env.pathExists path && env.readable path

/-- The result of the post-insertion validation block
(lines 216-231): the count re-check succeeded, found too few documents,
or itself raised (caught by the inner `except`). -/
inductive ValRes where
  | validated
  | mismatch
  | failedCheck
deriving DecidableEq

/-- What one call of `load_csv_to_mongo` reports for its job:
the file was skipped by `validate_csv_file`; the outer `except Exception`
fired (`logger.critical`); or the migration completed with
`records read`, `total_inserted`, `total_errors`, the trace of attempted
batch sizes, and the post-insertion validation result. -/
inductive LoadOutcome where
  | skipped
  | critical (e : PyErr)
  | completed (read inserted errors : Nat) (attempted : List Nat) (validation : ValRes)
deriving DecidableEq

/-- The body of the outer `try` of `load_csv_to_mongo`
(data_to_mongo.py lines 159-231): detect the delimiter, read and normalize
the CSV, convert date/time columns, build the records, run the batch loop,
then re-count documents inside the inner `try` (lines 217-231).
The returned `σ` is the store state when the body finishes or raises; an
`Except.error` is an exception that escapes the body (possible only before
the loop starts, since every per-batch and validation error is caught).
`if batchSize = 0` mirrors the `ValueError` Python's `range` raises for a
zero step. -/
def loadBody (env : JobEnv σ) (s0 : σ) (path : String) (batchSize : Nat) :
    σ × Except PyErr LoadOutcome :=
  match env.readCsv path (detect_delimiter (env.fileRead path) env.sniff) with
  | Except.error e => (s0, Except.error e)
  | Except.ok raw =>
      let recs := toRecords (convert_datetime_columns env.parseDt
        (whereNotNull (parseCsvTable raw)))
      if batchSize = 0 then
        (s0, Except.error (PyErr.err "range() arg 3 must not be zero"))
      else
        let st := insertBatches env.insertMany s0 (batches batchSize recs)
        let validation : ValRes :=
          match env.countDocs st.store with
          | Except.ok c =>
              if recs.length - st.totalErrors ≤ c then ValRes.validated
              else ValRes.mismatch
          | Except.error _ => ValRes.failedCheck
        (st.store,
          Except.ok (LoadOutcome.completed recs.length st.totalInserted
            st.totalErrors st.attempted validation))

/-- `load_csv_to_mongo` (lines 138-234 / 104-133): return early when
`validate_csv_file` fails; otherwise run the body, and let the outer
`except Exception` turn any escaped exception into a `logger.critical`
log plus a normal return.  The second component is what the caller sees:
an `Except.error` here would be an exception raised to the caller. -/
def load_csv_to_mongo (env : JobEnv σ) (s0 : σ) (path : String)
    (batchSize : Nat) : σ × Except PyErr LoadOutcome :=
  if validate_csv_file env path = false then (s0, Except.ok LoadOutcome.skipped)
  else
    match loadBody env s0 path batchSize with
    | (s2, Except.ok o) => (s2, Except.ok o)
    | (s2, Except.error e) => (s2, Except.ok (LoadOutcome.critical e))

/-- The "load all" loop of `main` (Project/data_to_mongo.py lines 156-159):
one shared client/store, `load_csv_to_mongo` per job in order.  If a call
raised, the exception would abort the loop (the remaining jobs would
produce no outcome — second branch); otherwise every job contributes one
outcome. -/
def runAllJobs (env : JobEnv σ) (batchSize : Nat) :
    σ → List String → σ × List LoadOutcome
  | s, [] => (s, [])
  | s, p :: ps =>
      match load_csv_to_mongo env s p batchSize with
      | (s2, Except.ok o) =>
          ((runAllJobs env batchSize s2 ps).1, o :: (runAllJobs env batchSize s2 ps).2)
      | (s2, Except.error _) => (s2, [])

/-! ### Concrete store behaviours used by the scenario claims -/

/-- Server-side unordered insert of a batch of keyed records into a
collection with a unique index: every record of the batch is attempted in
turn; a key already present yields one write error, a fresh key is
appended.  Returns (new store, inserted count, write-error count). -/
def insertUnorderedKeys : List Nat → List Nat → List Nat × Nat × Nat
  | store, [] => (store, 0, 0)
  | store, k :: ks =>
      if k ∈ store then
        let r := insertUnorderedKeys store ks
        (r.1, r.2.1, r.2.2 + 1)
      else
        let r := insertUnorderedKeys (store ++ [k]) ks
        (r.1, r.2.1 + 1, r.2.2)

/-- `insert_many(batch, ordered=False)` against the unique-key store:
a clean batch returns normally with all ids, a batch with rejected
records raises `BulkWriteError` carrying the per-record write errors. -/
def uniqueKeyStep (store : List Nat) (batch : List Nat) :
    List Nat × InsertResult :=
  let r := insertUnorderedKeys store batch
  (r.1, if r.2.2 = 0 then InsertResult.ok r.2.1
        else InsertResult.bulkWriteError r.2.1 r.2.2)

/-- A store whose connection is severed after `cut` insert calls: the
state counts the calls made; every call from the `cut`-th on raises a
non-bulk-write exception. -/
def severedStep (cut : Nat) (attempts : Nat) (batch : List ρ) :
    Nat × InsertResult :=
  if attempts < cut then (attempts + 1, InsertResult.ok batch.length)
  else (attempts + 1, InsertResult.generalError)

/-- A store that accepts every record of every batch. -/
def alwaysOkStep (s : Unit) (batch : List Nat) : Unit × InsertResult :=
  (s, InsertResult.ok batch.length)

/-! ### Lemmas about the batch slicing -/

theorem batchesGo_nil (b fuel : Nat) : batchesGo b fuel ([] : List α) = [] := by
  cases fuel <;> rfl

theorem batchesGo_fuel (b : Nat) (hb : 0 < b) :
    ∀ (f1 f2 : Nat) (l : List α), l.length ≤ f1 → l.length ≤ f2 →
      batchesGo b f1 l = batchesGo b f2 l := by
  intro f1
  induction f1 with
  | zero =>
      intro f2 l h1 _
      have hl : l = [] := List.eq_nil_of_length_eq_zero (Nat.le_zero.mp h1)
      subst hl
      cases f2 <;> rfl
  | succ f ih =>
      intro f2 l h1 h2
      cases l with
      | nil => cases f2 <;> rfl
      | cons x xs =>
          cases f2 with
          | zero => simp at h2
          | succ g =>
              show ((x :: xs).take b) :: batchesGo b f ((x :: xs).drop b) =
                ((x :: xs).take b) :: batchesGo b g ((x :: xs).drop b)
              congr 1
              apply ih
              · simp only [List.length_drop, List.length_cons] at h1 ⊢
                omega
              · simp only [List.length_drop, List.length_cons] at h2 ⊢
                omega

theorem batches_nil (b : Nat) : batches b ([] : List α) = [] := rfl

theorem batches_cons_eq (b : Nat) (hb : 0 < b) (l : List α) (hl : l ≠ []) :
    batches b l = l.take b :: batches b (l.drop b) := by
  obtain ⟨x, xs, rfl⟩ := List.exists_cons_of_ne_nil hl
  show batchesGo b (xs.length + 1) (x :: xs) = _
  show ((x :: xs).take b) :: batchesGo b xs.length ((x :: xs).drop b) = _
  congr 1
  apply batchesGo_fuel b hb
  · simp only [List.length_drop, List.length_cons]
    omega
  · exact Nat.le_refl _


theorem batchesGo_flatten (b : Nat) (hb : 0 < b) :
    ∀ (fuel : Nat) (l : List α), l.length ≤ fuel →
      (batchesGo b fuel l).flatten = l := by
  intro fuel
  induction fuel with
  | zero =>
      intro l h
      have hl : l = [] := List.eq_nil_of_length_eq_zero (Nat.le_zero.mp h)
      subst hl; rfl
  | succ f ih =>
      intro l h
      cases l with
      | nil => rfl
      | cons x xs =>
          show (((x :: xs).take b) :: batchesGo b f ((x :: xs).drop b)).flatten = _
          rw [List.flatten_cons, ih ((x :: xs).drop b)
            (by simp only [List.length_drop, List.length_cons] at h ⊢; omega)]
          exact List.take_append_drop b (x :: xs)

/-- Concatenating the batches in order gives back the record sequence. -/
theorem batches_flatten (b : Nat) (hb : 0 < b) (l : List α) :
    (batches b l).flatten = l :=
  batchesGo_flatten b hb l.length l (Nat.le_refl _)

theorem batchesGo_length (b : Nat) (hb : 0 < b) :
    ∀ (fuel : Nat) (l : List α), l.length ≤ fuel →
      (batchesGo b fuel l).length = (l.length + b - 1) / b := by
  intro fuel
  induction fuel with
  | zero =>
      intro l h
      have hl : l = [] := List.eq_nil_of_length_eq_zero (Nat.le_zero.mp h)
      subst hl
      rw [batchesGo_nil]
      simp [Nat.div_eq_of_lt (by omega : b - 1 < b)]
  | succ f ih =>
      intro l h
      cases l with
      | nil =>
          rw [batchesGo_nil]
          simp [Nat.div_eq_of_lt (by omega : b - 1 < b)]
      | cons x xs =>
          show (((x :: xs).take b) :: batchesGo b f ((x :: xs).drop b)).length = _
          rw [List.length_cons, ih ((x :: xs).drop b)
            (by simp only [List.length_drop, List.length_cons] at h ⊢; omega)]
          simp only [List.length_drop]
          rcases le_or_lt (x :: xs).length b with hle | hlt
          · have h0 : (x :: xs).length - b = 0 := by omega
            rw [h0]
            rw [Nat.div_eq_of_lt (by omega : 0 + b - 1 < b)]
            have hlen : 0 < (x :: xs).length := by simp
            symm
            apply Nat.div_eq_of_lt_le
            · omega
            · omega
          · have h1 : (x :: xs).length - b + b - 1 = (x :: xs).length - 1 := by omega
            have h2 : (x :: xs).length + b - 1 = ((x :: xs).length - 1) + b := by omega
            rw [h1, h2, Nat.add_div_right _ hb]

/-- The number of batches is the ceiling `⌈N/B⌉ = (N + B - 1) / B`. -/
theorem batches_length (b : Nat) (hb : 0 < b) (l : List α) :
    (batches b l).length = (l.length + b - 1) / b :=
  batchesGo_length b hb l.length l (Nat.le_refl _)

theorem batchesGo_mem (b : Nat) (hb : 0 < b) :
    ∀ (fuel : Nat) (l : List α), l.length ≤ fuel →
      ∀ batch ∈ batchesGo b fuel l, batch.length ≤ b ∧ batch ≠ [] := by
  intro fuel
  induction fuel with
  | zero =>
      intro l h batch hm
      have hl : l = [] := List.eq_nil_of_length_eq_zero (Nat.le_zero.mp h)
      subst hl; simp [batchesGo] at hm
  | succ f ih =>
      intro l h batch hm
      cases l with
      | nil => simp [batchesGo] at hm
      | cons x xs =>
          have hm2 : batch ∈ ((x :: xs).take b) :: batchesGo b f ((x :: xs).drop b) := hm
          rcases List.mem_cons.mp hm2 with hEq | hTail
          · subst hEq
            constructor
            · rw [List.length_take]; exact Nat.min_le_left _ _
            · have hpos : 0 < ((x :: xs).take b).length := by
                rw [List.length_take]
                have : 0 < (x :: xs).length := by simp
                exact Nat.lt_min.mpr ⟨hb, this⟩
              exact List.length_pos.mp hpos
          · exact ih ((x :: xs).drop b)
              (by simp only [List.length_drop, List.length_cons] at h ⊢; omega) batch hTail

/-- Every batch is nonempty and no longer than the batch size. -/
theorem batches_mem (b : Nat) (hb : 0 < b) (l : List α) :
    ∀ batch ∈ batches b l, batch.length ≤ b ∧ batch ≠ [] :=
  batchesGo_mem b hb l.length l (Nat.le_refl _)

theorem batchesGo_ne_nil (b : Nat) :
    ∀ (fuel : Nat) (l : List α), l.length ≤ fuel → l ≠ [] →
      batchesGo b fuel l ≠ [] := by
  intro fuel l h hl
  obtain ⟨x, xs, rfl⟩ := List.exists_cons_of_ne_nil hl
  cases fuel with
  | zero => simp at h
  | succ f => simp [batchesGo]

theorem batchesGo_dropLast (b : Nat) (hb : 0 < b) :
    ∀ (fuel : Nat) (l : List α), l.length ≤ fuel →
      ∀ batch ∈ (batchesGo b fuel l).dropLast, batch.length = b := by
  intro fuel
  induction fuel with
  | zero =>
      intro l h batch hm
      have hl : l = [] := List.eq_nil_of_length_eq_zero (Nat.le_zero.mp h)
      subst hl; simp [batchesGo] at hm
  | succ f ih =>
      intro l h batch hm
      cases l with
      | nil => simp [batchesGo] at hm
      | cons x xs =>
          have hshape : batchesGo b (f + 1) (x :: xs) =
              ((x :: xs).take b) :: batchesGo b f ((x :: xs).drop b) := rfl
          rw [hshape] at hm
          by_cases hdrop : (x :: xs).drop b = []
          · rw [hdrop, batchesGo_nil] at hm
            simp at hm
          · have htail : batchesGo b f ((x :: xs).drop b) ≠ [] :=
              batchesGo_ne_nil b f ((x :: xs).drop b)
                (by simp only [List.length_drop, List.length_cons] at h ⊢; omega) hdrop
            obtain ⟨r, rs, hrs⟩ := List.exists_cons_of_ne_nil htail
            rw [hrs] at hm
            rw [List.dropLast_cons₂] at hm
            rcases List.mem_cons.mp hm with hEq | hTail
            · subst hEq
              rw [List.length_take]
              have hblt : b < (x :: xs).length := by
                by_contra hc
                exact hdrop (List.drop_eq_nil_iff.mpr (by omega))
              omega
            · exact ih ((x :: xs).drop b)
                (by simp only [List.length_drop, List.length_cons] at h ⊢; omega) batch
                (by rw [hrs]; exact hTail)

/-- Every batch but the last has exactly the batch size. -/
theorem batches_dropLast (b : Nat) (hb : 0 < b) (l : List α) :
    ∀ batch ∈ (batches b l).dropLast, batch.length = b :=
  batchesGo_dropLast b hb l.length l (Nat.le_refl _)

theorem batchesGo_getLast (b : Nat) (hb : 0 < b) :
    ∀ (fuel : Nat) (l : List α), l.length ≤ fuel →
      ∀ batch, (batchesGo b fuel l).getLast? = some batch →
        batch.length = if l.length % b = 0 then b else l.length % b := by
  intro fuel
  induction fuel with
  | zero =>
      intro l h batch hm
      have hl : l = [] := List.eq_nil_of_length_eq_zero (Nat.le_zero.mp h)
      subst hl; simp [batchesGo] at hm
  | succ f ih =>
      intro l h batch hm
      cases l with
      | nil => simp [batchesGo] at hm
      | cons x xs =>
          have hshape : batchesGo b (f + 1) (x :: xs) =
              ((x :: xs).take b) :: batchesGo b f ((x :: xs).drop b) := rfl
          rw [hshape] at hm
          by_cases hdrop : (x :: xs).drop b = []
          · have hle : (x :: xs).length ≤ b := by
              have := List.drop_eq_nil_iff.mp hdrop
              omega
            rw [hdrop, batchesGo_nil] at hm
            simp only [List.getLast?_singleton, Option.some.injEq] at hm
            subst hm
            rw [List.length_take, Nat.min_eq_right hle]
            have hpos : 0 < (x :: xs).length := by simp
            by_cases heq : (x :: xs).length = b
            · rw [heq, Nat.mod_self]; simp
            · have hlt : (x :: xs).length < b := by omega
              rw [Nat.mod_eq_of_lt hlt]
              rw [if_neg (by omega)]
          · have htail : batchesGo b f ((x :: xs).drop b) ≠ [] :=
              batchesGo_ne_nil b f ((x :: xs).drop b)
                (by simp only [List.length_drop, List.length_cons] at h ⊢; omega) hdrop
            obtain ⟨r, rs, hrs⟩ := List.exists_cons_of_ne_nil htail
            rw [hrs, List.getLast?_cons_cons] at hm
            have hblt : b < (x :: xs).length := by
              by_contra hc
              exact hdrop (List.drop_eq_nil_iff.mpr (by omega))
            have hih := ih ((x :: xs).drop b)
              (by simp only [List.length_drop, List.length_cons] at h ⊢; omega) batch
              (by rw [hrs]; exact hm)
            simp only [List.length_drop] at hih
            have hmod : ((x :: xs).length - b) % b = (x :: xs).length % b := by
              have hsum : (x :: xs).length - b + b = (x :: xs).length := by omega
              calc ((x :: xs).length - b) % b
                  = ((x :: xs).length - b + b) % b := (Nat.add_mod_right _ _).symm
                _ = (x :: xs).length % b := by rw [hsum]
            rw [hmod] at hih
            exact hih

/-- The last batch has size `N mod B`, or `B` when `B` divides `N`. -/
theorem batches_getLast (b : Nat) (hb : 0 < b) (l : List α) :
    ∀ batch, (batches b l).getLast? = some batch →
      batch.length = if l.length % b = 0 then b else l.length % b :=
  batchesGo_getLast b hb l.length l (Nat.le_refl _)

/-! ### Lemmas about the batch-insert loop -/

theorem runBatchLoop_totals (step : σ → List ρ → σ × InsertResult)
    (hwf : WFStep step) :
    ∀ (bs : List (List ρ)) (st : LoopState σ),
      (runBatchLoop step st bs).totalInserted + (runBatchLoop step st bs).totalErrors ≤
        st.totalInserted + st.totalErrors + (bs.map List.length).sum := by
  intro bs
  induction bs with
  | nil => intro st; simp [runBatchLoop]
  | cons bb bs ih =>
      intro st
      have hstep := hwf st.store bb
      rw [show runBatchLoop step st (bb :: bs) =
        runBatchLoop step (applyInsertResult st (step st.store bb).1 bb.length
          (step st.store bb).2) bs from rfl]
      cases hr : (step st.store bb).2 with
      | ok n =>
          have hn : n ≤ bb.length := hstep.1 n hr
          have := ih (applyInsertResult st (step st.store bb).1 bb.length (InsertResult.ok n))
          simp only [applyInsertResult, List.map_cons, List.sum_cons] at this ⊢
          omega
      | bulkWriteError i e =>
          have he : e ≤ bb.length := hstep.2 i e hr
          have := ih (applyInsertResult st (step st.store bb).1 bb.length
            (InsertResult.bulkWriteError i e))
          simp only [applyInsertResult, List.map_cons, List.sum_cons] at this ⊢
          omega
      | generalError =>
          have := ih (applyInsertResult st (step st.store bb).1 bb.length
            InsertResult.generalError)
          simp only [applyInsertResult, List.map_cons, List.sum_cons] at this ⊢
          omega

theorem insertBatches_totals (step : σ → List ρ → σ × InsertResult)
    (hwf : WFStep step) (s0 : σ) (bs : List (List ρ)) :
    (insertBatches step s0 bs).totalInserted + (insertBatches step s0 bs).totalErrors ≤
      (bs.map List.length).sum := by
  have := runBatchLoop_totals step hwf bs
    { store := s0, totalInserted := 0, totalErrors := 0, attempted := [] }
  simpa [insertBatches] using this

/-- The record count is the sum of the batch sizes. -/
theorem batches_sum_lengths (b : Nat) (hb : 0 < b) (l : List α) :
    ((batches b l).map List.length).sum = l.length := by
  rw [← List.length_flatten, batches_flatten b hb]

/-! ### `load_csv_to_mongo` always returns normally -/

theorem load_csv_returns (env : JobEnv σ) (s0 : σ) (path : String)
    (batchSize : Nat) :
    ∃ o, (load_csv_to_mongo env s0 path batchSize).2 = Except.ok o := by
  unfold load_csv_to_mongo
  by_cases hv : validate_csv_file env path = false
  · rw [if_pos hv]
    exact ⟨LoadOutcome.skipped, rfl⟩
  · rw [if_neg hv]
    rcases hB : loadBody env s0 path batchSize with ⟨s2, r⟩
    cases r with
    | ok o => exact ⟨o, rfl⟩
    | error e => exact ⟨LoadOutcome.critical e, rfl⟩

/-- Unfolding of the "load all" loop at a job whose load returned normally. -/
theorem runAllJobs_cons (env : JobEnv σ) (batchSize : Nat) (s : σ) (p : String)
    (ps : List String) (s2 : σ) (o : LoadOutcome)
    (h : load_csv_to_mongo env s p batchSize = (s2, Except.ok o)) :
    runAllJobs env batchSize s (p :: ps) =
      ((runAllJobs env batchSize s2 ps).1, o :: (runAllJobs env batchSize s2 ps).2) := by
  conv_lhs => rw [runAllJobs]
  rw [h]

/-- Because `load_csv_to_mongo` never raises, the "load all" loop reaches
every job: one outcome per configured job, in order. -/
theorem runAllJobs_length (env : JobEnv σ) (batchSize : Nat) :
    ∀ (jobs : List String) (s : σ),
      (runAllJobs env batchSize s jobs).2.length = jobs.length := by
  intro jobs
  induction jobs with
  | nil => intro s; rfl
  | cons p ps ih =>
      intro s
      obtain ⟨o, ho⟩ := load_csv_returns env s p batchSize
      rcases hL : load_csv_to_mongo env s p batchSize with ⟨s2, r⟩
      rw [hL] at ho
      simp only at ho
      subst ho
      rw [runAllJobs_cons env batchSize s p ps s2 o hL]
      show (o :: (runAllJobs env batchSize s2 ps).2).length = ps.length + 1
      rw [List.length_cons, ih s2]

/-! ### Lemmas about date/time conversion -/

theorem convertCell_timestamp_or_missing (p : String → Option Nat) (v : Value) :
    (∃ t, convertCell p v = Value.timestamp t) ∨ convertCell p v = Value.missing := by
  cases v with
  | str s =>
      cases hp : p s with
      | none => right; simp [convertCell, toDatetimeCell, hp]
      | some t => left; exact ⟨t, by simp [convertCell, toDatetimeCell, hp]⟩
  | timestamp t => left; exact ⟨t, rfl⟩
  | nan => right; rfl
  | missing => right; rfl

theorem convertCell_canonical (p : String → Option Nat) (v : Value)
    (h : isCanonicalDt v = true) : convertCell p v = v := by
  cases v with
  | str s => simp [isCanonicalDt] at h
  | timestamp t => rfl
  | nan => simp [isCanonicalDt] at h
  | missing => rfl

theorem map_id_of_mem (l : List β) (f : β → β) (h : ∀ a ∈ l, f a = a) :
    l.map f = l := by
  induction l with
  | nil => rfl
  | cons x xs ih =>
      simp only [List.map_cons]
      rw [h x (List.mem_cons_self x xs), ih (fun a ha => h a (List.mem_cons_of_mem x ha))]

theorem zipWith_convert_eq (p : String → Option Nat) :
    ∀ (cols : List String) (row : List Value), row.length = cols.length →
      ((cols.zip row).all (fun cv => !(isDatetimeName cv.1) || isCanonicalDt cv.2)) = true →
      List.zipWith (fun c v => if isDatetimeName c then convertCell p v else v)
        cols row = row := by
  intro cols
  induction cols with
  | nil =>
      intro row hlen _
      have : row = [] := List.eq_nil_of_length_eq_zero hlen
      subst this; rfl
  | cons c cs ih =>
      intro row hlen hall
      cases row with
      | nil => simp at hlen
      | cons v vs =>
          simp only [List.zip_cons_cons, List.all_cons, Bool.and_eq_true] at hall
          simp only [List.zipWith]
          have hhead : (if isDatetimeName c then convertCell p v else v) = v := by
            cases hd : isDatetimeName c with
            | false => simp [hd]
            | true =>
                simp only [hd, if_true]
                apply convertCell_canonical
                have h1 := hall.1
                rw [hd] at h1
                simpa using h1
          rw [hhead, ih vs (by simpa using hlen) hall.2]

/-! ### Idempotence of the date coercion -/

/-- C9: re-running the loader's date/time coercion on a table whose
date/time-named columns already hold canonical timestamps (or the missing
marker) leaves the table unchanged. -/
theorem c9_date_coercion_idempotent (p : String → Option Nat) (t : Table)
    (hrect : rectangularTable t = true) (hcanon : dtColumnsCanonical t = true) :
    convert_datetime_columns p t = t := by
  have hrows : t.rows.map (fun row =>
      List.zipWith (fun c v => if isDatetimeName c then convertCell p v else v)
        t.cols row) = t.rows := by
    apply map_id_of_mem
    intro row hrow
    apply zipWith_convert_eq p t.cols row
    · have := List.all_eq_true.mp hrect row hrow
      simpa using this
    · exact List.all_eq_true.mp hcanon row hrow
  unfold convert_datetime_columns
  rw [hrows]

/-- A one-column already-canonical table used to instantiate C9. -/
def tableC9 : Table :=
  { cols := ["report_date"], rows := [[Value.timestamp 5], [Value.missing]] }

/-- C9 witness: the idempotence theorem applied to a concrete canonical
table. -/
theorem c9_date_coercion_idempotent_witness :
    convert_datetime_columns (fun _ => none) tableC9 = tableC9 :=
  c9_date_coercion_idempotent (fun _ => none) tableC9 (by decide) (by decide)

/-! ### C1 — the batch partition property -/

/-- C1: for records of length `N` and batch size `B > 0` the loop produces
`⌈N/B⌉ = (N + B - 1) / B` contiguous batches in order; all but the last
have size `B`, the last has size `N mod B` (or `B` when `B ∣ N`), and
concatenating them reproduces the record sequence exactly. -/
theorem c1_batch_partition (l : List α) (b : Nat) (hb : 0 < b) :
    (batches b l).length = (l.length + b - 1) / b ∧
    (batches b l).flatten = l ∧
    (∀ batch ∈ (batches b l).dropLast, batch.length = b) ∧
    (∀ batch, (batches b l).getLast? = some batch →
      batch.length = if l.length % b = 0 then b else l.length % b) :=
  ⟨batches_length b hb l, batches_flatten b hb l, batches_dropLast b hb l,
   batches_getLast b hb l⟩

/-- C1 witness: the partition property at five records and batch size two. -/
theorem c1_batch_partition_witness :
    0 < 2 ∧ (batches 2 [0, 1, 2, 3, 4]).length = 3 ∧
      (batches 2 [0, 1, 2, 3, 4]).flatten = [0, 1, 2, 3, 4] :=
  ⟨by decide, (c1_batch_partition [0, 1, 2, 3, 4] 2 (by decide)).1,
   (c1_batch_partition [0, 1, 2, 3, 4] 2 (by decide)).2.1⟩

/-! ### C2 — partial-batch failure accounting -/

/-- C2 counterexample: batch size 2, records `[0, 1, 2, 3, 4]`, a unique
index already holding key `3`.  Exactly one failure is recorded, but the
loop's reported `total_inserted` is 3, not the 4 the claim states: the
`total_inserted +=` line is skipped for a batch that raises
`BulkWriteError`, so the records the store accepted inside the failing
batch are never added to the running inserted total. -/
theorem c2_counterexample :
    (insertBatches uniqueKeyStep [3] (batches 2 [0, 1, 2, 3, 4])).totalErrors = 1 ∧
    ¬ (insertBatches uniqueKeyStep [3] (batches 2 [0, 1, 2, 3, 4])).totalInserted = 4 := by
  decide

/-- C2 amended: in the scenario above the batching is `[2, 2, 1]`, the
unordered insert persists every non-violating record (the final store
holds all five keys), exactly one failure is recorded, and the outcome
reports inserted = 3 — the successes inside the failing batch are
persisted but not counted. -/
theorem c2_partial_batch_accounting :
    (batches 2 [0, 1, 2, 3, 4]).map List.length = [2, 2, 1] ∧
    (batches 2 [0, 1, 2, 3, 4]).flatten = [0, 1, 2, 3, 4] ∧
    (insertBatches uniqueKeyStep [3] (batches 2 [0, 1, 2, 3, 4])).store = [3, 0, 1, 2, 4] ∧
    (insertBatches uniqueKeyStep [3] (batches 2 [0, 1, 2, 3, 4])).totalErrors = 1 ∧
    (insertBatches uniqueKeyStep [3] (batches 2 [0, 1, 2, 3, 4])).totalInserted = 3 ∧
    (insertBatches uniqueKeyStep [3] (batches 2 [0, 1, 2, 3, 4])).attempted = [2, 2, 1] := by
  decide

/-! ### C3 — whole-batch / connection errors -/

/-- C3 counterexample: five records, batch size 2, the connection severed
after the first insert call.  The claim says the remaining batches are
abandoned unattempted, but the loop catches the exception per batch and
calls the store again for every remaining batch: all three batches are
attempted. -/
theorem c3_counterexample :
    (insertBatches (severedStep 1) 0 (batches 2 [0, 1, 2, 3, 4])).attempted = [2, 2, 1] ∧
    ¬ (insertBatches (severedStep 1) 0 (batches 2 [0, 1, 2, 3, 4])).attempted.length ≤ 2 ∧
    (insertBatches (severedStep 1) 0 (batches 2 [0, 1, 2, 3, 4])).totalErrors = 3 := by
  decide

/-- Raw five-row single-column table for the severed-connection scenario. -/
def rawC3 : RawTable :=
  { cols := ["k"], rows := [["0"], ["1"], ["2"], ["3"], ["4"]] }

/-- Environment of the severed-connection scenario: two jobs share the
store client; the connection drops for good after the first insert call
(the store state counts insert calls made). -/
def envC3 : JobEnv Nat :=
  { pathExists := fun _ => true
    readable := fun _ => true
    fileRead := fun _ => Except.ok "k".data
    sniff := fun _ => Except.ok ','
    readCsv := fun _ _ => Except.ok rawC3
    parseDt := fun _ => none
    insertMany := severedStep 1
    countDocs := fun _ => Except.ok 5 }

/-- C3 amended: a whole-batch/connection error is contained per batch, not
per job: the failing batch's records are counted as failed and the loop
still attempts every remaining batch of the job (with the connection still
severed each of them fails, so every remaining record is counted failed),
and the orchestrator still attempts the next job in the mapping — here the
second job runs and reports its own outcome. -/
theorem c3_connection_error_containment :
    runAllJobs envC3 2 0 ["a.csv", "b.csv"] =
      (6, [LoadOutcome.completed 5 2 3 [2, 2, 1] ValRes.validated,
           LoadOutcome.completed 5 0 5 [2, 2, 1] ValRes.validated]) := by
  decide

/-! ### C4 — missing-value normalization -/

/-- C4 counterexample: the cell `"NA"` is not blank and contains no
whitespace, yet the loader normalizes it to the missing marker (it is a
default pandas NA sentinel); a cell of one space is whitespace-only, yet
it is kept as the string `" "`.  Both directions of the claimed
"iff blank or whitespace-only" fail. -/
theorem c4_counterexample :
    normalizeCell "NA" = Value.missing ∧ blankOrWhitespace "NA" = false ∧
    normalizeCell " " = Value.str " " ∧ blankOrWhitespace " " = true := by
  decide

/-- C4 amended: a cell is normalized to the missing marker iff its text is
one of the default pandas NA sentinels; the blank cell is one of them, the
cell `"0"` never is, and the missing marker is distinct from a present
empty string. -/
theorem c4_na_normalization :
    (∀ s : String, normalizeCell s = Value.missing ↔ s ∈ defaultNaValues) ∧
    normalizeCell "" = Value.missing ∧
    normalizeCell "0" = Value.str "0" ∧
    Value.missing ≠ Value.str "" := by
  refine ⟨?_, by decide, by decide, by decide⟩
  intro s
  unfold normalizeCell readCell
  by_cases h : s ∈ defaultNaValues
  · rw [if_pos h]
    simp [whereNotNullCell, h]
  · rw [if_neg h]
    simp [whereNotNullCell, h]

/-! ### C5 — date/time parsing never raises and is not an insert failure -/

/-- The 3-row end-to-end table of the spec scenario: a `report_date`
column with one unparseable date. -/
def rawC5 : RawTable :=
  { cols := ["country", "report_date"],
    rows := [["A", "2020-01-01"], ["B", "not-a-date"], ["C", "2020-03-01"]] }

/-- A concrete datetime parser recognising the two valid dates of the
scenario. -/
def parseDtC5 (s : String) : Option Nat :=
  if s = "2020-01-01" then some 100
  else if s = "2020-03-01" then some 160 else none

/-- Environment of the 3-row scenario: the file is present and readable,
the sniffer finds a comma, and the store (a bare document counter) accepts
every record. -/
def envC5 : JobEnv Nat :=
  { pathExists := fun _ => true
    readable := fun _ => true
    fileRead := fun _ => Except.ok "country,report_date".data
    sniff := fun _ => Except.ok ','
    readCsv := fun _ _ => Except.ok rawC5
    parseDt := parseDtC5
    insertMany := fun n batch => (n + batch.length, InsertResult.ok batch.length)
    countDocs := fun n => Except.ok n }

/-- C5: a cell of a date/time-named column always becomes a timestamp or
the missing marker — never an error; and in the 3-row scenario with one
invalid date the bad cell becomes missing while the outcome still reports
read = 3, inserted = 3, failed = 0. -/
theorem c5_parse_coercion_not_failure :
    (∀ (p : String → Option Nat) (v : Value),
        (∃ t, convertCell p v = Value.timestamp t) ∨ convertCell p v = Value.missing) ∧
    toRecords (convert_datetime_columns parseDtC5 (whereNotNull (parseCsvTable rawC5))) =
      [[("country", Value.str "A"), ("report_date", Value.timestamp 100)],
       [("country", Value.str "B"), ("report_date", Value.missing)],
       [("country", Value.str "C"), ("report_date", Value.timestamp 160)]] ∧
    load_csv_to_mongo envC5 0 "covid.csv" 1000 =
      (3, Except.ok (LoadOutcome.completed 3 3 0 [3] ValRes.validated)) := by
  refine ⟨convertCell_timestamp_or_missing, by decide, rfl⟩

/-! ### C6 — the loop invariant -/

/-- C6: for a well-formed store behaviour, the batches partition the
record sequence (concatenation restores it, every batch is nonempty and
bounded by the batch size), and after any number `k` of loop iterations
the running `total_inserted + total_errors` never exceeds the records
read. -/
theorem c6_loop_invariant (step : σ → List ρ → σ × InsertResult)
    (hwf : WFStep step) (recs : List ρ) (b : Nat) (hb : 0 < b) (s0 : σ) (k : Nat) :
    (batches b recs).flatten = recs ∧
    (∀ batch ∈ batches b recs, batch.length ≤ b ∧ batch ≠ []) ∧
    (insertBatches step s0 ((batches b recs).take k)).totalInserted +
      (insertBatches step s0 ((batches b recs).take k)).totalErrors ≤ recs.length := by
  refine ⟨batches_flatten b hb recs, batches_mem b hb recs, ?_⟩
  have h1 := insertBatches_totals step hwf s0 ((batches b recs).take k)
  have h2 : (((batches b recs).take k).map List.length).sum ≤
      ((batches b recs).map List.length).sum := by
    rw [List.map_take]
    have h3 : (((batches b recs).map List.length).take k).sum +
        (((batches b recs).map List.length).drop k).sum =
        ((batches b recs).map List.length).sum := by
      rw [← List.sum_append, List.take_append_drop]
    omega
  have h4 := batches_sum_lengths b hb recs
  omega

/-- The store that accepts everything is well formed. -/
theorem alwaysOkStep_wf : WFStep alwaysOkStep := by
  intro s b
  constructor
  · intro n h
    have h2 : InsertResult.ok b.length = InsertResult.ok n := h
    injection h2 with h3
    omega
  · intro i e h
    have h2 : InsertResult.ok b.length = InsertResult.bulkWriteError i e := h
    exact InsertResult.noConfusion h2

/-- C6 witness: the invariant at five records, batch size two, after two
iterations of the loop against the always-accepting store. -/
theorem c6_loop_invariant_witness :
    (batches 2 [0, 1, 2, 3, 4]).flatten = [0, 1, 2, 3, 4] ∧
    (insertBatches alwaysOkStep () ((batches 2 [0, 1, 2, 3, 4]).take 2)).totalInserted +
      (insertBatches alwaysOkStep () ((batches 2 [0, 1, 2, 3, 4]).take 2)).totalErrors ≤ 5 :=
  ⟨(c6_loop_invariant alwaysOkStep alwaysOkStep_wf [0, 1, 2, 3, 4] 2 (by decide) () 2).1,
   (c6_loop_invariant alwaysOkStep alwaysOkStep_wf [0, 1, 2, 3, 4] 2 (by decide) () 2).2.2⟩

/-! ### C7 — missing or unreadable input file -/

/-- C7: when the path does not exist or is not readable, the job reads no
records, performs no insert (the store state is untouched), reports the
skip, and the "load all" orchestration still processes every other job. -/
theorem c7_missing_file (env : JobEnv σ) (s0 : σ) (path : String) (bs : Nat)
    (h : env.pathExists path = false ∨ env.readable path = false) :
    load_csv_to_mongo env s0 path bs = (s0, Except.ok LoadOutcome.skipped) ∧
    ∀ rest, runAllJobs env bs s0 (path :: rest) =
      ((runAllJobs env bs s0 rest).1,
        LoadOutcome.skipped :: (runAllJobs env bs s0 rest).2) := by
  have hv : validate_csv_file env path = false := by
    unfold validate_csv_file
    rcases h with h | h <;> simp [h]
  have hload : load_csv_to_mongo env s0 path bs = (s0, Except.ok LoadOutcome.skipped) := by
    unfold load_csv_to_mongo
    rw [if_pos hv]
  exact ⟨hload, fun rest => runAllJobs_cons env bs s0 path rest s0 LoadOutcome.skipped hload⟩

/-- Environment in which no path exists. -/
def envC7 : JobEnv Nat :=
  { pathExists := fun _ => false
    readable := fun _ => false
    fileRead := fun _ => Except.error (PyErr.err "unreadable")
    sniff := fun _ => Except.error (PyErr.err "sniff failed")
    readCsv := fun _ _ => Except.error (PyErr.err "read failed")
    parseDt := fun _ => none
    insertMany := fun n _ => (n, InsertResult.generalError)
    countDocs := fun _ => Except.error (PyErr.err "count failed") }

/-- C7 witness: a missing file is skipped with the store untouched. -/
theorem c7_missing_file_witness :
    load_csv_to_mongo envC7 0 "no-such-file.csv" 2 = (0, Except.ok LoadOutcome.skipped) :=
  (c7_missing_file envC7 0 "no-such-file.csv" 2 (Or.inl rfl)).1

/-! ### C8 — the delimiter detector -/

/-- C8: the detector inspects at most 1024 characters of the file, returns
the sniffer's delimiter when reading and sniffing succeed, and returns a
comma on a read failure or a sniffer failure — it never raises to its
caller. -/
theorem c8_delimiter_detector (readResult : Except PyErr (List Char))
    (sn : List Char → Except PyErr Char) :
    (∀ content, readResult = Except.ok content →
        (content.take 1024).length ≤ 1024 ∧
        detect_delimiter readResult sn =
          (match sn (content.take 1024) with
           | Except.error _ => ','
           | Except.ok d => d)) ∧
    (∀ e, readResult = Except.error e → detect_delimiter readResult sn = ',') ∧
    (∀ content e, readResult = Except.ok content →
        sn (content.take 1024) = Except.error e →
        detect_delimiter readResult sn = ',') := by
  refine ⟨?_, ?_, ?_⟩
  · intro content h
    subst h
    constructor
    · rw [List.length_take]
      exact Nat.min_le_left _ _
    · rfl
  · intro e h
    subst h
    rfl
  · intro content e h hs
    subst h
    show (match sn (content.take 1024) with
      | Except.error _ => ','
      | Except.ok d => d) = ','
    rw [hs]

/-- C8 witness: an unreadable file makes the detector fall back to the
comma. -/
theorem c8_delimiter_detector_witness :
    detect_delimiter (Except.error (PyErr.err "io")) (fun _ => Except.ok ';') = ',' :=
  (c8_delimiter_detector (Except.error (PyErr.err "io"))
    (fun _ => Except.ok ';')).2.1 (PyErr.err "io") rfl

/-! ### C10 — the per-job load function never raises -/

/-- C10: for every environment (any filesystem, any parser and any store
behaviour, including failing inserts and a failing post-insertion count),
`load_csv_to_mongo` returns normally: every exception of the body is
caught by one of its handlers. -/
theorem c10_load_never_raises (env : JobEnv σ) (s0 : σ) (path : String)
    (batchSize : Nat) :
    ∃ o, (load_csv_to_mongo env s0 path batchSize).2 = Except.ok o :=
  load_csv_returns env s0 path batchSize

end DataToMongo
